import Mathlib

/-!
Verification of the emberdb storage and query core.

This file is a shallow embedding, in Lean 4, of the parts of the emberdb
source that the verified properties talk about:

* `src/storage/chunk.rs`   — `TimeChunk` and its operations;
* `src/storage/persistence.rs` — `PersistenceManager` and the `WriteAheadLog`;
* `src/storage/mod.rs`     — `StorageEngine` (insert, range query, latest,
  chunk-id alignment, `flush_all`);
* `src/timeseries/query.rs` — `QueryEngine` aggregation;
* `src/timeseries/functions.rs` — the analytical functions.

Modelling conventions, used consistently below:

* Rust `i64` timestamps are modelled as `Int`.  The Rust `%` operator on
  `i64` truncates toward zero, which is `Int.tmod` (not `Int.emod`).
* Rust `f64` values are modelled as `ℚ`.  Every numeric computation a
  verified statement depends on (sums of small integers, their means,
  counts) is exact in IEEE binary64, so the rational model agrees with the
  float computation on those inputs.  `f64::sqrt` has no rational
  counterpart and is passed in as an explicit function parameter where the
  source calls it.
* `HashMap<K, V>` is modelled as an association list `List (K × V)` with
  the map operations of `std::collections::HashMap` (`get`, `insert`,
  `entry().or_insert_with(..)`): lookup finds the first matching key,
  insertion of a fresh key appends at the end.  Where the source iterates
  a `HashMap` (whose order is unspecified), the model iterates the
  association list in that insertion order; statements that depend on
  iteration order are flagged in their doc comments.
* `SystemTime::now()` is an external input and is threaded through as an
  explicit `now : Int` argument.
* Fallible Rust functions returning `Result<T, E>` become
  `Except E T`; I/O failure that the source can encounter is injected
  through explicit oracles where a verified statement depends on it.
-/

deriving instance DecidableEq for Except

namespace EmberDB

/-- Association-list lookup, modelling `HashMap::get`. -/
def assocGet {α β : Type} [DecidableEq α] : List (α × β) → α → Option β
  | [], _ => none
  | (k, v) :: rest, a => if k = a then some v else assocGet rest a

/-- Association-list insert-or-replace, modelling `HashMap::insert`. -/
def assocInsert {α β : Type} [DecidableEq α] : List (α × β) → α → β → List (α × β)
  | [], a, b => [(a, b)]
  | (k, v) :: rest, a, b =>
      if k = a then (k, b) :: rest else (k, v) :: assocInsert rest a b

/-- Modelling `map.entry(k).or_insert_with(Vec::new).push(v)`: push `v` onto
the vector stored under `k`, creating an empty vector first if `k` is absent. -/
def assocEntryPush {α β : Type} [DecidableEq α] : List (α × List β) → α → β → List (α × List β)
  | [], a, b => [(a, [b])]
  | (k, v) :: rest, a, b =>
      if k = a then (k, v ++ [b]) :: rest else (k, v) :: assocEntryPush rest a b

/-- The storage `Record` of `src/storage/mod.rs` (timestamp, metric name,
value, context, FHIR resource type).  `context: HashMap<String,String>` is
an association list. -/
structure Record where
  timestamp : Int
  metric_name : String
  value : ℚ
  context : List (String × String)
  resource_type : String
deriving DecidableEq, Inhabited

/-- Rust `CompressionState` of `src/storage/chunk.rs`. -/
inductive CompressionState where
  | Uncompressed
  | Compressed
  | InProgress
deriving DecidableEq

/-- Rust `ChunkMetadata` of `src/storage/chunk.rs`. -/
structure ChunkMetadata where
  created_at : Int
  last_access : Int
  compression_ratio : ℚ
  record_count : Nat
  size_bytes : Nat
deriving DecidableEq

/-- Rust `ChunkError` of `src/storage/chunk.rs`. -/
inductive ChunkError where
  | OutOfTimeRange (msg : String)
  | CompressionFailed (msg : String)
  | DiskWriteFailed (msg : String)
  | ValidationFailed (msg : String)
  | DataCorrupted (msg : String)
  | IndexError (msg : String)
  | SerializationFailed (msg : String)
  | DeserializationFailed (msg : String)
  | DiskReadFailed (msg : String)
deriving DecidableEq

/-- Rust `TimeChunk` of `src/storage/chunk.rs`: a time bucket `[start_time,
end_time)` with the primary index `records: HashMap<String, Vec<Record>>`. -/
structure TimeChunk where
  start_time : Int
  end_time : Int
  records : List (String × List Record)
  metadata : ChunkMetadata
  compression_state : CompressionState
  dirty : Bool
deriving DecidableEq

/-- Rust `TimeChunk::new`.  `now` is the result of the `SystemTime::now()` call. -/
def TimeChunk.new (start_time end_time now : Int) : TimeChunk :=
  { start_time := start_time
    end_time := end_time
    records := []
    metadata :=
      { created_at := now
        last_access := now
        compression_ratio := 1
        record_count := 0
        size_bytes := 0 }
    compression_state := .Uncompressed
    dirty := true }

/-- Rust `TimeChunk::can_accept`: the timestamp falls in `[start_time, end_time)`. -/
def TimeChunk.can_accept (c : TimeChunk) (timestamp : Int) : Bool :=
  c.start_time ≤ timestamp && timestamp < c.end_time

/-- Rust `TimeChunk::append`.  On success the record is pushed onto its metric
vector, `record_count` is incremented, `last_access` is refreshed (`now`
models the `SystemTime::now()` call inside `update_access_time`) and the
chunk is marked dirty.  On an out-of-range timestamp the chunk is left
unchanged and `OutOfTimeRange` is returned. -/
def TimeChunk.append (c : TimeChunk) (record : Record) (now : Int) :
    Except ChunkError TimeChunk :=
  if !(c.can_accept record.timestamp) then
    .error (.OutOfTimeRange "Record timestamp outside chunk range")
  else
    .ok { c with
      records := assocEntryPush c.records record.metric_name record
      metadata := { c.metadata with
        record_count := c.metadata.record_count + 1
        last_access := now }
      dirty := true }

/-- Rust `std::mem::size_of::<Record>()` on a 64-bit target (8-byte timestamp,
24-byte `String` × 2, 8-byte `f64`, 48-byte `HashMap` header).  Every
verified statement keeps chunks far below the `is_full` thresholds, so no
conclusion depends on the exact value of this constant. -/
def sizeOfRecord : Nat := 112

/-- Rust `TimeChunk::get_size`: `Σ (key byte length + record count × size_of::<Record>())`. -/
def TimeChunk.get_size (c : TimeChunk) : Nat :=
  c.records.foldl (fun acc p => acc + p.1.utf8ByteSize + p.2.length * sizeOfRecord) 0

/-- Rust `TimeChunk::is_full`. -/
def TimeChunk.is_full (c : TimeChunk) : Bool :=
  c.metadata.record_count > 10000 || c.get_size > 1000000

/-- Rust `TimeChunk::get_range`: empty result if the query window misses the
chunk entirely, otherwise the records of the metric filtered to
`start ≤ ts < end`; an absent metric is `IndexError`. -/
def TimeChunk.get_range (c : TimeChunk) (start e : Int) (metric : String) :
    Except ChunkError (List Record) :=
  if start > c.end_time || e < c.start_time then
    .ok []
  else
    match assocGet c.records metric with
    | some records => .ok (records.filter (fun r => start ≤ r.timestamp && r.timestamp < e))
    | none => .error (.IndexError ("Metric not found: " ++ metric))

/-- Rust `TimeChunk::get_latest` as written in `src/storage/chunk.rs`:
`records.get(metric).and_then(|records| records.last())`, i.e. the
last-pushed record for the metric, with `IndexError` when the metric is
absent (or its vector empty). -/
def TimeChunk.get_latest (c : TimeChunk) (metric : String) : Except ChunkError Record :=
  match (assocGet c.records metric).bind List.getLast? with
  | some r => .ok r
  | none => .error (.IndexError ("No records found for metric: " ++ metric))

/-- The option-shaped per-chunk latest that `StorageEngine::get_latest` in
`src/storage/mod.rs` consumes (its match arms are `Ok(Some(_)) / Ok(None) /
Err(_)`; the spec, §9, fixes the option shape: absence is not an error).
The record chosen is the same one `TimeChunk::get_latest` yields: the LAST
element of the metric vector, not the one with the maximal timestamp. -/
def TimeChunk.latestOption (c : TimeChunk) (metric : String) : Option Record :=
  (assocGet c.records metric).bind List.getLast?

/-- Delta encoding of the timestamps of one metric vector, as done by the
loop inside `TimeChunk::compress` (`last_timestamp` starts at 0; each
record timestamp is replaced by its delta to the previous one). -/
def deltaEncode : Int → List Record → List Record
  | _, [] => []
  | last, r :: rest =>
      { r with timestamp := r.timestamp - last } :: deltaEncode r.timestamp rest

/-- Rust `TimeChunk::calculate_compression_ratio` (returns `1.0`). -/
def TimeChunk.calculate_compression_ratio (_c : TimeChunk) : ℚ := 1

/-- Rust `TimeChunk::compress`: rewrites every metric vector with delta-encoded
timestamps, sets the compression state to `Compressed` (via `InProgress`),
refreshes the ratio and marks the chunk dirty.  The Rust function returns
`Result` but every path returns `Ok`, so the model returns the chunk. -/
def TimeChunk.compress (c : TimeChunk) : TimeChunk :=
  let c1 := { c with
    records := c.records.map (fun p : String × List Record => (p.1, deltaEncode 0 p.2))
    compression_state := .Compressed }
  { c1 with
    metadata := { c1.metadata with compression_ratio := c1.calculate_compression_ratio }
    dirty := true }

/-- Per-metric timestamp chain check of `TimeChunk::validate`: records are
in non-decreasing timestamp order. -/
def timestampsNondecreasing : List Record → Bool
  | [] => true
  | [_] => true
  | r1 :: r2 :: rest =>
      !(r2.timestamp < r1.timestamp) && timestampsNondecreasing (r2 :: rest)

/-- The per-metric loop of `TimeChunk::validate`: empty vectors are skipped;
otherwise first the ordering check, then the bounds check, each failing
with `ValidationFailed`. -/
def validateMetrics (c : TimeChunk) : List (String × List Record) → Except ChunkError Unit
  | [] => .ok ()
  | (metric, records) :: rest =>
      if records.isEmpty then validateMetrics c rest
      else if !(timestampsNondecreasing records) then
        .error (.ValidationFailed ("Records not in time order for metric " ++ metric))
      else if !(records.all (fun r => c.can_accept r.timestamp)) then
        .error (.ValidationFailed ("Record outside chunk range for metric " ++ metric))
      else validateMetrics c rest

/-- Rust `TimeChunk::validate`. -/
def TimeChunk.validate (c : TimeChunk) : Except ChunkError Unit :=
  if c.start_time ≥ c.end_time then
    .error (.ValidationFailed "Invalid time range")
  else validateMetrics c c.records

/-- Rust `TimeChunk::is_dirty`. -/
def TimeChunk.is_dirty (c : TimeChunk) : Bool := c.dirty

/-- Rust `TimeChunk::mark_clean`. -/
def TimeChunk.mark_clean (c : TimeChunk) : TimeChunk := { c with dirty := false }

/-- Chunk invariant, first half (spec §3 invariant 1): each stored record
timestamp lies in `[start_time, end_time)`. -/
def recordsWithinBounds (c : TimeChunk) : Bool :=
  c.records.all (fun p => p.2.all (fun r => c.can_accept r.timestamp))

/-- Sum of the per-metric vector lengths of a primary index. -/
def sumLens (m : List (String × List Record)) : Nat :=
  (m.map (fun p => p.2.length)).sum

/-- Chunk invariant, second half (spec §3 invariant 3): `record_count`
equals the sum of the per-metric vector lengths. -/
def recordCountConsistent (c : TimeChunk) : Bool :=
  c.metadata.record_count == sumLens c.records

/-- The conjunction of the two chunk invariants named by the spec. -/
def chunkInvariant (c : TimeChunk) : Bool :=
  recordsWithinBounds c && recordCountConsistent c

/-! ## PersistenceManager (`src/storage/persistence.rs`), record level

The `PersistenceManager` model tracks the observable state the verified
statements need: whether `base_path` is the empty path (the in-memory
special case of `append_records`), the active-records table
(`metric_name → latest timestamp`), the sequence of records appended to
the WAL, the number of `sync_data` calls the WAL has performed, and the
chunk ids passed to `save_chunk`.  File I/O is modelled as succeeding
here; `flush_all` below injects `save_chunk` failure through an oracle. -/

structure PersistenceManager where
  basePathEmpty : Bool
  active_records : List (String × Int)
  walRecords : List Record
  walSyncs : Nat
  savedChunks : List Int
deriving DecidableEq

/-- Rust `PersistenceManager::append_record`: append the record to the WAL (one
frame, one `sync_data`), then set the active-records entry for its metric
to its timestamp. -/
def PersistenceManager.append_record (pm : PersistenceManager) (record : Record) :
    PersistenceManager :=
  { pm with
    walRecords := pm.walRecords ++ [record]
    walSyncs := pm.walSyncs + 1
    active_records := assocInsert pm.active_records record.metric_name record.timestamp }

/-- Rust `PersistenceManager::append_records`: nothing for an empty batch or an
empty `base_path`; for more than 100 records one buffered write of all the
frames (no `sync`, no active-records update); otherwise the per-record
`append_record` path. -/
def PersistenceManager.append_records (pm : PersistenceManager) (records : List Record) :
    PersistenceManager :=
  if records.isEmpty then pm
  else if pm.basePathEmpty then pm
  else if records.length > 100 then
    { pm with walRecords := pm.walRecords ++ records }
  else
    records.foldl (fun p r => p.append_record r) pm

/-- Rust `PersistenceManager::mark_chunk_durable`: drop every active-records
entry whose timestamp is below `chunk_id + chunk_duration_secs`
(`retain(|_, ts| *ts >= chunk_end_time)`). -/
def PersistenceManager.mark_chunk_durable (pm : PersistenceManager)
    (chunk_id chunk_duration_secs : Int) : PersistenceManager :=
  { pm with
    active_records := pm.active_records.filter (fun p => chunk_id + chunk_duration_secs ≤ p.2) }

/-- The `save_chunk` success path: the chunk file keyed by the chunk
`start_time` is (re)written. -/
def PersistenceManager.save_chunk (pm : PersistenceManager) (chunk : TimeChunk) :
    PersistenceManager :=
  { pm with savedChunks := pm.savedChunks ++ [chunk.start_time] }

/-- Rust `PersistenceManager::truncate_wal` success path: the log file is
atomically replaced by an empty one. -/
def PersistenceManager.truncate_wal (pm : PersistenceManager) : PersistenceManager :=
  { pm with walRecords := [] }

/-! ## WriteAheadLog (`src/storage/persistence.rs`), byte level

For the framing property the WAL is modelled at the byte level: the log is
a `List Nat` of bytes, and serde serialization/deserialization of a
`Record` (an external library call) is passed in as `encode`/`decode`
parameters. -/

/-- Big-endian bytes of `len as u32` (`u32::to_be_bytes`); `as u32`
truncates, hence the `% 2^32`. -/
def be32 (n : Nat) : List Nat :=
  let m := n % 4294967296
  [m / 16777216, m / 65536 % 256, m / 256 % 256, m % 256]

/-- Rust `WriteAheadLog::append_record`: write the 4-byte big-endian length of
the serialized payload, then the payload (followed by `sync_data`, not
visible in the byte stream). -/
def WriteAheadLog.append_record (encode : Record → List Nat) (log : List Nat)
    (record : Record) : List Nat :=
  let serialized := encode record
  log ++ be32 serialized.length ++ serialized

/-- The `io::Error` outcomes `WriteAheadLog::replay` can surface:
`UnexpectedEof` from a `read_exact`, or the converted
`serde_json::Error` of a payload that fails to deserialize. -/
inductive WalReadError where
  | unexpectedEof
  | invalidData
deriving DecidableEq

/-- Rust `WriteAheadLog::replay`, from offset 0.  Each iteration `read_exact`s a
4-byte size; fewer than 4 remaining bytes give `UnexpectedEof` there,
which the `match` catches and turns into clean loop exit.  The second
`read_exact`, of the payload, is followed by `?`: when fewer than
`record_size` bytes remain its `UnexpectedEof` PROPAGATES and `replay`
returns the error.  Each iteration consumes at least 4 bytes, so
`bytes.length` bounds the number of iterations of the Rust `loop`;
`replayAux` runs the loop with that bound as fuel (the `fuel = 0` case is
unreachable from `replay`). -/
def replayAux (decode : List Nat → Option Record) :
    Nat → List Nat → Except WalReadError (List Record)
  | 0, _ => .ok []
  | fuel + 1, a :: b :: c :: d :: rest =>
      let record_size := ((a * 256 + b) * 256 + c) * 256 + d
      if rest.length < record_size then .error .unexpectedEof
      else
        match decode (rest.take record_size) with
        | none => .error .invalidData
        | some record =>
            (replayAux decode fuel (rest.drop record_size)).map (fun rs => record :: rs)
  | _ + 1, _ => .ok []

/-- Rust `WriteAheadLog::replay` over the full byte log. -/
def WriteAheadLog.replay (decode : List Nat → Option Record) (bytes : List Nat) :
    Except WalReadError (List Record) :=
  replayAux decode bytes.length bytes

/-! ## StorageEngine (`src/storage/mod.rs`) -/

/-- Rust `StorageError` of `src/storage/mod.rs`. -/
inductive StorageError where
  | ChunkNotFound (msg : String)
  | ChunkError (err : ChunkError)
  | InvalidTimeRange (msg : String)
  | PersistenceError (msg : String)
deriving DecidableEq

/-- The derived `Debug` rendering of a `ChunkError`, used by the `Display`
impl of `StorageError` (`"Chunk error: {:?}"`).  The messages produced by
the source contain no characters `Debug` would escape. -/
def ChunkError.debugStr : ChunkError → String
  | .OutOfTimeRange msg => "OutOfTimeRange(\"" ++ msg ++ "\")"
  | .CompressionFailed msg => "CompressionFailed(\"" ++ msg ++ "\")"
  | .DiskWriteFailed msg => "DiskWriteFailed(\"" ++ msg ++ "\")"
  | .ValidationFailed msg => "ValidationFailed(\"" ++ msg ++ "\")"
  | .DataCorrupted msg => "DataCorrupted(\"" ++ msg ++ "\")"
  | .IndexError msg => "IndexError(\"" ++ msg ++ "\")"
  | .SerializationFailed msg => "SerializationFailed(\"" ++ msg ++ "\")"
  | .DeserializationFailed msg => "DeserializationFailed(\"" ++ msg ++ "\")"
  | .DiskReadFailed msg => "DiskReadFailed(\"" ++ msg ++ "\")"

/-- The `Display` impl of `StorageError` (`e.to_string()`). -/
def StorageError.displayStr : StorageError → String
  | .ChunkNotFound msg => "Chunk not found: " ++ msg
  | .ChunkError err => "Chunk error: " ++ err.debugStr
  | .InvalidTimeRange msg => "Invalid time range: " ++ msg
  | .PersistenceError msg => "Persistence error: " ++ msg

/-- The `StorageEngine` state a single-threaded execution observes: the
chunk map (`HashMap<i64, TimeChunk>` as an association list), the chunk
duration in whole seconds (`Duration::as_secs`), the `persistence_enabled`
flag, and the persistence manager. -/
structure EngineState where
  chunks : List (Int × TimeChunk)
  chunk_duration : Int
  persistence_enabled : Bool
  pm : PersistenceManager
deriving DecidableEq

/-- Rust `StorageEngine::get_chunk_id` (also the free function
`chunk_id_for_timestamp`): `timestamp - (timestamp % chunk_duration)` with
the Rust truncating `%` on `i64`, i.e. `Int.tmod`. -/
def get_chunk_id (timestamp chunk_duration : Int) : Int :=
  timestamp - Int.tmod timestamp chunk_duration

/-- Rust `StorageEngine::insert_internal`.  The WAL append (when requested and
persistence is enabled) happens first; then the chunk id is computed, the
chunk created on demand, and the record appended.  On append failure the
error is returned (the Rust map retains the freshly created empty chunk in
that case; no verified statement observes it, and the model returns only
the error).  If the chunk is now full and persistence is enabled, the
snapshot is saved, marked durable, and the chunk marked clean — the I/O
success path; `flush_all` below is where save failure is modelled. -/
def StorageEngine.insert_internal (st : EngineState) (record : Record)
    (write_wal : Bool) (now : Int) : Except StorageError EngineState :=
  let st1 :=
    if write_wal && st.persistence_enabled then
      { st with pm := st.pm.append_record record }
    else st
  let chunk_id := get_chunk_id record.timestamp st1.chunk_duration
  let chunks1 :=
    if (assocGet st1.chunks chunk_id).isSome then st1.chunks
    else st1.chunks ++ [(chunk_id, TimeChunk.new chunk_id (chunk_id + st1.chunk_duration) now)]
  match assocGet chunks1 chunk_id with
  | none => .error (.ChunkNotFound "Chunk not found after creation")
  | some chunk =>
      match chunk.append record now with
      | .error e => .error (.ChunkError e)
      | .ok chunk2 =>
          let chunks2 := assocInsert chunks1 chunk_id chunk2
          if chunk2.is_full && st1.persistence_enabled then
            let pm2 := ((st1.pm.save_chunk chunk2).mark_chunk_durable
              chunk2.start_time st1.chunk_duration)
            .ok { st1 with
              chunks := assocInsert chunks2 chunk_id chunk2.mark_clean
              pm := pm2 }
          else
            .ok { st1 with chunks := chunks2 }

/-- Rust `StorageEngine::insert`: `insert_internal` with
`write_wal = persistence_enabled`. -/
def StorageEngine.insert (st : EngineState) (record : Record) (now : Int) :
    Except StorageError EngineState :=
  StorageEngine.insert_internal st record st.persistence_enabled now

/-- Fold `insert` over a list of records, stopping at the first error. -/
def insertAll (st : EngineState) (records : List Record) (now : Int) :
    Except StorageError EngineState :=
  records.foldlM (fun s r => StorageEngine.insert s r now) st

/-- The chunk ids visited by `(start_chunk..=end_chunk).step_by(duration)`:
`start_chunk, start_chunk + d, …` while `≤ end_chunk` (empty when
`end_chunk < start_chunk`).  `step_by` requires a positive step; the
configured chunk duration is positive. -/
def chunkIdsInRange (start_chunk end_chunk d : Int) : List Int :=
  if end_chunk < start_chunk ∨ d ≤ 0 then []
  else (List.range ((end_chunk - start_chunk).toNat / d.toNat + 1)).map
    (fun i => start_chunk + d * i)

/-- The chunk loop of `StorageEngine::query_range`: for each visited id, a
present chunk is asked for its range — an `Err` from `get_range`
propagates (`map_err(StorageError::from)?`) — and the results are
concatenated in id order. -/
def queryChunks (chunks : List (Int × TimeChunk)) (ids : List Int)
    (start e : Int) (metric : String) : Except StorageError (List Record) :=
  match ids with
  | [] => .ok []
  | id :: restIds =>
      match assocGet chunks id with
      | none => queryChunks chunks restIds start e metric
      | some chunk =>
          match chunk.get_range start e metric with
          | .error err => .error (.ChunkError err)
          | .ok records =>
              (queryChunks chunks restIds start e metric).map (fun acc => records ++ acc)

/-- Rust `StorageEngine::query_range`. -/
def StorageEngine.query_range (st : EngineState) (start e : Int) (metric : String) :
    Except StorageError (List Record) :=
  if start ≥ e then
    .error (.InvalidTimeRange "Start time must be before end time")
  else
    queryChunks st.chunks
      (chunkIdsInRange (get_chunk_id start st.chunk_duration)
        (get_chunk_id e st.chunk_duration) st.chunk_duration)
      start e metric

/-- Rust `StorageEngine::get_latest`: fold over all chunks; a chunk with a
record for the metric replaces the running candidate when its (per-chunk
latest) record has a strictly greater timestamp; a chunk without one is
skipped.  The chunk map is iterated in insertion order (the Rust `HashMap`
order is unspecified; the verified statements use a single chunk). -/
def StorageEngine.get_latest (st : EngineState) (metric : String) :
    Except StorageError (Option Record) :=
  .ok (st.chunks.foldl
    (fun latest p =>
      match TimeChunk.latestOption p.2 metric with
      | some record =>
          match latest with
          | none => some record
          | some l => if record.timestamp > l.timestamp then some record else latest
      | none => latest)
    none)

/-! ### `StorageEngine::flush_all`

`save_chunk` and `truncate_wal` perform file I/O that can fail; a
`SaveOracle` injects those outcomes (`mark_chunk_durable` has no failing
path in the source).  `flush_all` returns both the `Result` and the state
left behind. -/

structure SaveOracle where
  saveFails : Int → Bool
  truncateFails : Bool

/-- Outcome of `flush_all`: the returned `Result` plus the engine state
after the call. -/
structure FlushOutcome where
  result : Except StorageError Unit
  state : EngineState

/-- The flush loop of `flush_all` over the dirty snapshot: each entry is
saved (`save_chunk`, failing per the oracle, keyed by the chunk
`start_time`) and on success marked durable; the first failure returns
immediately with the persistence state reached so far. -/
def flushLoop (oracle : SaveOracle) (chunk_duration : Int) :
    PersistenceManager → List (Int × TimeChunk) →
    Except StorageError Unit × PersistenceManager
  | pm, [] => (.ok (), pm)
  | pm, (_, chunk) :: rest =>
      if oracle.saveFails chunk.start_time then
        (.error (.PersistenceError "save_chunk failed"), pm)
      else
        flushLoop oracle chunk_duration
          ((pm.save_chunk chunk).mark_chunk_durable chunk.start_time chunk_duration) rest

/-- Mark every chunk whose id is in `ids` clean (the write-locked loop at
the end of `flush_all`). -/
def markCleanAll (chunks : List (Int × TimeChunk)) (ids : List Int) :
    List (Int × TimeChunk) :=
  chunks.map (fun p => if p.1 ∈ ids then (p.1, p.2.mark_clean) else p)

/-- Rust `StorageEngine::flush_all`: skip when persistence is disabled;
otherwise snapshot the dirty chunks, save + mark-durable each (aborting on
the first failure, with no chunk marked clean and the WAL untouched), then
mark all snapshot chunks clean, then truncate the WAL (whose failure is
also returned, after the chunks were already cleaned). -/
def StorageEngine.flush_all (oracle : SaveOracle) (st : EngineState) : FlushOutcome :=
  if !st.persistence_enabled then ⟨.ok (), st⟩
  else
    let snapshot := st.chunks.filter (fun p => p.2.is_dirty)
    match flushLoop oracle st.chunk_duration st.pm snapshot with
    | (.error e, pm1) => ⟨.error e, { st with pm := pm1 }⟩
    | (.ok _, pm1) =>
        let chunks1 := markCleanAll st.chunks (snapshot.map (fun p => p.1))
        if oracle.truncateFails then
          ⟨.error (.PersistenceError "truncate_wal failed"),
            { st with pm := pm1, chunks := chunks1 }⟩
        else
          ⟨.ok (), { st with pm := pm1.truncate_wal, chunks := chunks1 }⟩

/-! ## QueryEngine (`src/timeseries/query.rs`) -/

/-- Rust `Aggregation` of `src/timeseries/query.rs`. -/
inductive Aggregation where
  | Mean
  | Max
  | Min
  | Count
  | Sum
deriving DecidableEq

/-- Rust `TimeSeriesQuery`; `interval` is carried as whole seconds
(`Duration::as_secs as i64`). -/
structure TimeSeriesQuery where
  start_time : Int
  end_time : Int
  metrics : List String
  aggregation : Option Aggregation
  interval : Option Int

/-- Rust `QueryError` of `src/timeseries/query.rs`. -/
inductive QueryError where
  | StorageError (msg : String)
  | InvalidTimeRange (msg : String)
  | MetricNotFound (msg : String)
deriving DecidableEq

/-- Rust `QueryEngine::aggregate_all`.  The Rust function indexes `records[0]`
(its callers always pass a non-empty list); the model reads the head with
a default.  The `Max`/`Min` folds start from `f64::NEG_INFINITY` /
`f64::INFINITY`, which ℚ lacks; seeding with the first value instead gives
the same result on every non-empty list the callers supply. -/
def QueryEngine.aggregate_all (records : List Record) (aggregation : Aggregation) : Record :=
  let first_record := records.headI
  let values := records.map (fun r => r.value)
  let value : ℚ :=
    match aggregation with
    | .Mean => values.sum / (values.length : ℚ)
    | .Max => values.foldl max first_record.value
    | .Min => values.foldl min first_record.value
    | .Count => (values.length : ℚ)
    | .Sum => values.sum
  { timestamp := first_record.timestamp
    metric_name := first_record.metric_name
    value := value
    context := first_record.context
    resource_type := first_record.resource_type }

/-- Rust `QueryEngine::aggregate_by_interval`: group records by
`ts - ts % interval` (truncating `%`), then aggregate each group.  The
model keeps the `HashMap` groups in first-occurrence order; the Rust
iteration order of `grouped.into_iter()` is unspecified, and statements
about the output are order-sensitive only up to that choice. -/
def QueryEngine.aggregate_by_interval (records : List Record) (aggregation : Aggregation)
    (interval_secs : Int) : List Record :=
  let grouped := records.foldl
    (fun g record =>
      assocEntryPush g (record.timestamp - Int.tmod record.timestamp interval_secs) record)
    ([] : List (Int × List Record))
  grouped.map (fun p => QueryEngine.aggregate_all p.2 aggregation)

/-- Rust `QueryEngine::aggregate_records`: empty in, empty out; otherwise
per-interval aggregation when an interval is given, else a single
aggregate over everything. -/
def QueryEngine.aggregate_records (records : List Record) (aggregation : Aggregation)
    (interval : Option Int) : List Record :=
  if records.isEmpty then []
  else
    match interval with
    | some i => QueryEngine.aggregate_by_interval records aggregation i
    | none => [QueryEngine.aggregate_all records aggregation]

/-- The per-metric loop of `QueryEngine::query_range`: each metric is
fetched from storage (an error is mapped to
`QueryError::StorageError(e.to_string())` and propagated), aggregated when
requested, and the contributions are concatenated in metric order. -/
def queryMetricsLoop (st : EngineState) (q : TimeSeriesQuery) :
    List String → Except QueryError (List Record)
  | [] => .ok []
  | metric :: rest =>
      match StorageEngine.query_range st q.start_time q.end_time metric with
      | .error e => .error (.StorageError e.displayStr)
      | .ok records =>
          let contribution :=
            match q.aggregation with
            | some aggregation => QueryEngine.aggregate_records records aggregation q.interval
            | none => records
          (queryMetricsLoop st q rest).map (fun acc => contribution ++ acc)

/-- Rust `QueryEngine::query_range`. -/
def QueryEngine.query_range (st : EngineState) (q : TimeSeriesQuery) :
    Except QueryError (List Record) :=
  if q.start_time ≥ q.end_time then
    .error (.InvalidTimeRange "Start time must be before end time")
  else queryMetricsLoop st q q.metrics

/-! ## Analytical functions (`src/timeseries/functions.rs`)

`f64::sqrt` is passed in as `sqrtF : ℚ → ℚ`; the i64→f64 and f64→i64
conversions on timestamps are exact on every input the verified
statements use. -/

/-- Rust `x as i64` on a finite `f64`: truncation toward zero. -/
def ratTruncToInt (x : ℚ) : Int := if 0 ≤ x then ⌊x⌋ else ⌈x⌉

/-- Rust `TrendAnalysis` of `src/timeseries/functions.rs`. -/
structure TrendAnalysis where
  metric_name : String
  slope : ℚ
  r_squared : ℚ
  start_value : ℚ
  end_value : ℚ
  min_value : ℚ
  max_value : ℚ
  stddev : ℚ
  data_points : Nat
  samples : List (Int × ℚ)
deriving DecidableEq

/-- Rust `TimeSeriesStats` of `src/timeseries/functions.rs` (the `percentiles`
`HashMap` as an association list). -/
structure TimeSeriesStats where
  metric_name : String
  min : ℚ
  max : ℚ
  mean : ℚ
  median : ℚ
  stddev : ℚ
  count : Nat
  percentiles : List (String × ℚ)
deriving DecidableEq

/-- Rust `OutlierPoint` of `src/timeseries/functions.rs`. -/
structure OutlierPoint where
  timestamp : Int
  value : ℚ
  deviation : ℚ
  score : ℚ
deriving DecidableEq

/-- Rust `OutlierDetection` of `src/timeseries/functions.rs`. -/
structure OutlierDetection where
  metric_name : String
  outliers : List OutlierPoint
  threshold : ℚ
  method : String
deriving DecidableEq

/-- Rust `TimeSeriesFunctions::calculate_trend` (ordinary least squares over
`(timestamp, value)` points sorted by timestamp, plus min/max/stddev and
up to 20 evenly spaced sample points).  The `min`/`max` folds are seeded
from `f64::INFINITY` / `NEG_INFINITY` in the source; on the non-empty
lists of this branch, seeding with the first value gives the same
result. -/
def TimeSeriesFunctions.calculate_trend (sqrtF : ℚ → ℚ) (records : List Record) :
    TrendAnalysis :=
  if records.isEmpty then
    { metric_name := ""
      slope := 0, r_squared := 0, start_value := 0, end_value := 0
      min_value := 0, max_value := 0, stddev := 0
      data_points := 0, samples := [] }
  else
    let metric_name := (records.headI).metric_name
    let points : List (ℚ × ℚ) :=
      (records.map (fun r => ((r.timestamp : ℚ), r.value))).mergeSort
        (fun a b => a.1 ≤ b.1)
    let n : ℚ := (points.length : ℚ)
    let mean_x : ℚ := (points.map (fun p => p.1)).sum / n
    let mean_y : ℚ := (points.map (fun p => p.2)).sum / n
    let numerator : ℚ := (points.map (fun p => (p.1 - mean_x) * (p.2 - mean_y))).sum
    let denominator : ℚ := (points.map (fun p => (p.1 - mean_x) ^ 2)).sum
    let slope := if denominator ≠ 0 then numerator / denominator else 0
    let intercept := mean_y - slope * mean_x
    let ss_total : ℚ := (points.map (fun p => (p.2 - mean_y) ^ 2)).sum
    let ss_residual : ℚ := (points.map (fun p => (p.2 - (slope * p.1 + intercept)) ^ 2)).sum
    let r_squared := if ss_total ≠ 0 then 1 - ss_residual / ss_total else 0
    let values := points.map (fun p => p.2)
    let min_value := values.foldl min values.headI
    let max_value := values.foldl max values.headI
    let var_sum : ℚ := (values.map (fun y => (y - mean_y) ^ 2)).sum
    let stddev := sqrtF (var_sum / n)
    let step := Nat.max (points.length / 20) 1
    let samples0 := ((List.range ((points.length + step - 1) / step)).map
      (fun i => points.getD (i * step) (0, 0))).map
      (fun p => (ratTruncToInt p.1, p.2))
    let firstP := points.headI
    let lastP := points.getLastD (0, 0)
    let samples1 :=
      if samples0.isEmpty ∨ (samples0.headI).1 ≠ ratTruncToInt firstP.1 then
        (ratTruncToInt firstP.1, firstP.2) :: samples0
      else samples0
    let samples :=
      if samples1.isEmpty ∨ (samples1.getLastD (0, 0)).1 ≠ ratTruncToInt lastP.1 then
        samples1 ++ [(ratTruncToInt lastP.1, lastP.2)]
      else samples1
    { metric_name := metric_name
      slope := slope
      r_squared := r_squared
      start_value := firstP.2
      end_value := lastP.2
      min_value := min_value
      max_value := max_value
      stddev := stddev
      data_points := points.length
      samples := samples }

/-- Rust `TimeSeriesFunctions::calculate_stats` (sorted values; median as the
middle or mean of the two middles; percentile index
`round(p/100 × (n−1))`, where `f64::round` on these non-negative arguments
agrees with `⌊x + 1/2⌋`). -/
def TimeSeriesFunctions.calculate_stats (sqrtF : ℚ → ℚ) (records : List Record) :
    TimeSeriesStats :=
  if records.isEmpty then
    { metric_name := ""
      min := 0, max := 0, mean := 0, median := 0, stddev := 0
      count := 0, percentiles := [] }
  else
    let metric_name := (records.headI).metric_name
    let values := (records.map (fun r => r.value)).mergeSort (fun a b => a ≤ b)
    let count := values.length
    let min := values.headD 0
    let max := values.getLastD 0
    let mean : ℚ := values.sum / (count : ℚ)
    let median :=
      if count % 2 == 0 then (values.getD (count / 2 - 1) 0 + values.getD (count / 2) 0) / 2
      else values.getD (count / 2) 0
    let var_sum : ℚ := (values.map (fun v => (v - mean) ^ 2)).sum
    let stddev := sqrtF (var_sum / (count : ℚ))
    let percentiles := [5, 10, 25, 75, 90, 95, 99].foldl
      (fun ps (p : Nat) =>
        let idx := (round ((p : ℚ) / 100 * ((count : ℚ) - 1))).toNat
        if idx < count then assocInsert ps ("p" ++ toString p) (values.getD idx 0) else ps)
      ([] : List (String × ℚ))
    { metric_name := metric_name
      min := min
      max := max
      mean := mean
      median := median
      stddev := stddev
      count := count
      percentiles := percentiles }

/-- Rust `TimeSeriesFunctions::detect_outliers` (z-score against the supplied
threshold; score `|z|/(|z|+1)`; result sorted by descending score, stable,
matching `sort_by(|a, b| b.score.partial_cmp(&a.score))`). -/
def TimeSeriesFunctions.detect_outliers (sqrtF : ℚ → ℚ) (records : List Record)
    (z_threshold : ℚ) : OutlierDetection :=
  if records.isEmpty then
    { metric_name := ""
      outliers := []
      threshold := z_threshold
      method := "zscore" }
  else
    let metric_name := (records.headI).metric_name
    let values := records.map (fun r => r.value)
    let mean : ℚ := values.sum / (values.length : ℚ)
    let var_sum : ℚ := (values.map (fun v => (v - mean) ^ 2)).sum
    let stddev := sqrtF (var_sum / (values.length : ℚ))
    let outliers := records.filterMap (fun record =>
      let z_score := if stddev > 0 then (record.value - mean) / stddev else 0
      let abs_z_score := |z_score|
      if abs_z_score > z_threshold then
        some { timestamp := record.timestamp
               value := record.value
               deviation := record.value - mean
               score := abs_z_score / (abs_z_score + 1) }
      else none)
    { metric_name := metric_name
      outliers := outliers.mergeSort (fun a b => b.score ≤ a.score)
      threshold := z_threshold
      method := "zscore" }

/-! ## Concrete inputs used by the verified statements -/

/-- A record with empty context, of resource type `"Observation"`. -/
def mkRec (ts : Int) (v : ℚ) (metric : String) : Record :=
  { timestamp := ts
    metric_name := metric
    value := v
    context := []
    resource_type := "Observation" }

/-- A freshly initialized persistence manager over a non-empty base path. -/
def pm0 : PersistenceManager :=
  { basePathEmpty := false, active_records := [], walRecords := [], walSyncs := 0,
    savedChunks := [] }

/-- An engine with no chunks, chunk duration `d` seconds, and persistence
disabled (the configuration the test in the source uses). -/
def engine0 (d : Int) : EngineState :=
  { chunks := [], chunk_duration := d, persistence_enabled := false, pm := pm0 }

/-! ## C1 — `get_latest` and the maximal timestamp -/

/-- Two records for metric `"m"` inserted out of timestamp order into one
chunk: first `ts = 200`, then `ts = 100`. -/
def c1state : Except StorageError EngineState :=
  insertAll (engine0 3600) [mkRec 200 1 "m", mkRec 100 2 "m"] 0

/-- C1: evaluating the code at the failing input.  After successfully
inserting `(m, ts=200)` and then `(m, ts=100)` — both land in chunk 0 —
`StorageEngine::get_latest("m")` returns the record with timestamp 100,
because `TimeChunk::get_latest` takes `records.last()`, the last-pushed
record, rather than the timestamp maximum.  The claim (and spec §4.1/§8.4)
requires a record with timestamp ≥ 200. -/
theorem C1_get_latest_returns_last_pushed_not_max :
    c1state.map (fun st => StorageEngine.get_latest st "m")
      = .ok (.ok (some (mkRec 100 2 "m"))) ∧
    (mkRec 100 2 "m").timestamp < (mkRec 200 1 "m").timestamp := by decide

/-! ## C2 — WAL replay on a torn tail -/

/-- The record whose frame forms the intact prefix of the torn log. -/
def c2record : Record := mkRec 1 1 "m"

/-- A concrete stand-in for `serde_json::to_vec` on the single record the
statement uses: a one-byte payload. -/
def c2encode : Record → List Nat := fun _ => [7]

/-- The matching stand-in for `serde_json::from_slice`: decodes exactly
that payload back to the record. -/
def c2decode : List Nat → Option Record :=
  fun l => if l = [7] then some c2record else none

/-- C2: evaluating the code at the failing input.  The log holds one
complete frame (a faithful round-trip: replay of just that frame yields
the appended record bit-for-bit) followed by a torn tail whose 4-byte
length prefix reads fully (declaring 5 payload bytes) but only one payload
byte remains.  `WriteAheadLog::replay` returns `Err(UnexpectedEof)` —
the `?` on the payload `read_exact` propagates — instead of returning the
complete frames without error as the claim (and spec §4.2) states. -/
theorem C2_replay_errors_on_torn_payload_tail :
    c2decode (c2encode c2record) = some c2record ∧
    WriteAheadLog.replay c2decode (WriteAheadLog.append_record c2encode [] c2record)
      = .ok [c2record] ∧
    WriteAheadLog.replay c2decode
        (WriteAheadLog.append_record c2encode [] c2record ++ [0, 0, 0, 5, 9])
      = .error .unexpectedEof := by decide

/-! ## C3 — `query_range` over a chunk without the metric -/

/-- C3: evaluating the code at the failing input.  After inserting a single
record for metric `"a"` at `ts = 0`, chunk 0 exists but holds nothing for
`"m"`; `StorageEngine::query_range(0, 10, "m")` then fails with
`ChunkError(IndexError)` — `TimeChunk::get_range` returns `Err` for an
absent metric and the engine propagates it with `?` — instead of
succeeding with the empty sequence as the claim (and spec §4.1/§7) states. -/
theorem C3_query_range_propagates_index_error :
    (insertAll (engine0 3600) [mkRec 0 1 "a"] 0).map
        (fun st => StorageEngine.query_range st 0 10 "m")
      = .ok (.error (.ChunkError (.IndexError "Metric not found: m"))) := by decide

/-! ## C4 — chunk-id alignment for negative timestamps -/

/-- C4: evaluating the code at the failing input.  For `ts = -5` and
`chunk_duration = 3600`, `get_chunk_id` computes
`-5 - (-5 % 3600) = -5 - (-5) = 0` (Rust `%` truncates toward zero), while
floor alignment is `floor(-5/3600) * 3600 = -3600`.  The computed id does
not satisfy `chunk_id ≤ t`, so the chunk created for `[0, 3600)` rejects
the record and `insert` fails with `ChunkError(OutOfTimeRange)`, which the
claim (and spec §3/§4.4) says cannot happen. -/
theorem C4_negative_timestamp_misaligned_chunk_id :
    get_chunk_id (-5) 3600 = 0 ∧
    3600 * Int.fdiv (-5) 3600 = -3600 ∧
    ¬ get_chunk_id (-5) 3600 ≤ -5 ∧
    StorageEngine.insert (engine0 3600) (mkRec (-5) 1 "m") 0
      = .error (.ChunkError (.OutOfTimeRange "Record timestamp outside chunk range")) := by
  decide

/-! ## C7 — the aggregation scenario -/

/-- Values 10, 20, 30, 40 for metric `"m"` at timestamps 100, 200, 300,
400 (spec §8, scenario 4). -/
def c7recs : List Record :=
  [mkRec 100 10 "m", mkRec 200 20 "m", mkRec 300 30 "m", mkRec 400 40 "m"]

/-- The engine state after inserting the four records of the scenario
(`chunk_duration = 3600`): one chunk `[0, 3600)` holding all four under
`"m"`.  That `insertAll` produces exactly this state is the first conjunct
of the C7 amended theorem. -/
def c7state : EngineState :=
  { chunks := [(0,
      { start_time := 0, end_time := 3600,
        records := [("m", c7recs)],
        metadata := { created_at := 0, last_access := 0, compression_ratio := 1,
                      record_count := 4, size_bytes := 0 },
        compression_state := .Uncompressed, dirty := true })],
    chunk_duration := 3600, persistence_enabled := false, pm := pm0 }

/-- The scenario query with `aggregation = Mean`, no interval. -/
def c7queryMean : TimeSeriesQuery :=
  { start_time := 0, end_time := 500, metrics := ["m"],
    aggregation := some .Mean, interval := none }

/-- The scenario query with `aggregation = Mean` and a 200-second
interval. -/
def c7queryInterval : TimeSeriesQuery :=
  { start_time := 0, end_time := 500, metrics := ["m"],
    aggregation := some .Mean, interval := some 200 }

/-- C7 counterexample: with `interval = 200`, grouping by
`align(ts, 200) = ts - ts % 200` splits timestamps 100, 200, 300, 400 into
THREE groups — `{100}`, `{200, 300}`, `{400}` — so the query yields three
aggregate records with means 10, 25 and 40 (listed here in the
first-occurrence group order; the multiset is order-independent), not the
two records with means 15 and 35 the claim states. -/
theorem C7_interval_200_yields_three_aggregates :
    (QueryEngine.query_range c7state c7queryInterval).map
        (fun l => l.map (fun r => r.value))
      = .ok [10, 25, 40] ∧
    (QueryEngine.query_range c7state c7queryInterval).map List.length ≠ .ok 2 := by
  constructor
  · with_unfolding_all decide
  · with_unfolding_all decide

/-- C7 amended: the four insertions succeed; the `Mean`-without-interval
query yields exactly one record with value 25; the `interval = 200` query
yields three aggregates whose means are 10, 25 and 40 (groups `{100}`,
`{200,300}`, `{400}` under `align(ts, interval)`). -/
theorem C7_mean_25_and_three_interval_groups :
    insertAll (engine0 3600) c7recs 0 = .ok c7state ∧
    (QueryEngine.query_range c7state c7queryMean).map
        (fun l => l.map (fun r => r.value))
      = .ok [25] ∧
    (QueryEngine.query_range c7state c7queryInterval).map
        (fun l => l.map (fun r => r.value))
      = .ok [10, 25, 40] := by
  refine ⟨by decide, ?_, ?_⟩
  · with_unfolding_all decide
  · with_unfolding_all decide

/-! ## C8 — `Count` aggregation over an empty underlying range -/

/-- C8 counterexample: on an engine holding no records, the valid query
`[0, 1)` for metric `"m"` with `aggregation = Count, interval = None`
returns the EMPTY list — `aggregate_records` short-circuits empty input —
not the single record with value 0 the claim requires for an empty
underlying range. -/
theorem C8_count_of_empty_range_returns_no_record :
    QueryEngine.query_range (engine0 3600)
        { start_time := 0, end_time := 1, metrics := ["m"],
          aggregation := some .Count, interval := none }
      = .ok [] ∧
    (QueryEngine.query_range (engine0 3600)
        { start_time := 0, end_time := 1, metrics := ["m"],
          aggregation := some .Count, interval := none }).map List.length
      ≠ .ok 1 := by decide

/-! ## C5 — `flush_all` failure atomicity -/

/-- When the dirty snapshot contains a chunk whose save fails, the flush
loop returns the (first) save error. -/
theorem flushLoop_error_of_fail (oracle : SaveOracle) (d : Int)
    (snapshot : List (Int × TimeChunk)) (pm : PersistenceManager)
    (hfail : ∃ p ∈ snapshot, oracle.saveFails p.2.start_time = true) :
    (flushLoop oracle d pm snapshot).1 = .error (.PersistenceError "save_chunk failed") := by
  induction snapshot generalizing pm with
  | nil => simp at hfail
  | cons q rest ih =>
      obtain ⟨id, chunk⟩ := q
      cases hs : oracle.saveFails chunk.start_time with
      | true => simp [flushLoop, hs]
      | false =>
          obtain ⟨p, hp, hpf⟩ := hfail
          rcases List.mem_cons.mp hp with hh | ht
          · rw [hh] at hpf
            simp only at hpf
            rw [hpf] at hs
            exact absurd hs (by simp)
          · simp only [flushLoop, hs, Bool.false_eq_true, if_false]
            exact ih _ ⟨p, ht, hpf⟩

/-- The flush loop never touches the WAL contents: it only saves chunk
files and prunes the active-records table. -/
theorem flushLoop_preserves_walRecords (oracle : SaveOracle) (d : Int)
    (snapshot : List (Int × TimeChunk)) (pm : PersistenceManager) :
    ((flushLoop oracle d pm snapshot).2).walRecords = pm.walRecords := by
  induction snapshot generalizing pm with
  | nil => rfl
  | cons q rest ih =>
      obtain ⟨id, chunk⟩ := q
      cases hs : oracle.saveFails chunk.start_time with
      | true => simp [flushLoop, hs]
      | false =>
          simp only [flushLoop, hs, Bool.false_eq_true, if_false]
          rw [ih]
          rfl

/-- C5: if persistence is enabled and the save of some chunk in the dirty
snapshot fails, `flush_all` returns the error of that save, the chunk map is
completely unchanged — in particular no chunk in the dirty snapshot has
`mark_clean` applied, so every chunk that was dirty before the call is
still dirty — and the WAL is not truncated. -/
theorem C5_flush_all_save_failure_preserves_dirty (oracle : SaveOracle) (st : EngineState)
    (hen : st.persistence_enabled = true)
    (hfail : ∃ p ∈ st.chunks.filter (fun p => p.2.is_dirty),
      oracle.saveFails p.2.start_time = true) :
    (StorageEngine.flush_all oracle st).result
      = .error (.PersistenceError "save_chunk failed") ∧
    (StorageEngine.flush_all oracle st).state.chunks = st.chunks ∧
    (StorageEngine.flush_all oracle st).state.pm.walRecords = st.pm.walRecords := by
  have h1 := flushLoop_error_of_fail oracle st.chunk_duration
    (st.chunks.filter (fun p => p.2.is_dirty)) st.pm hfail
  have h2 := flushLoop_preserves_walRecords oracle st.chunk_duration
    (st.chunks.filter (fun p => p.2.is_dirty)) st.pm
  unfold StorageEngine.flush_all
  rw [hen]
  simp only [Bool.not_true, Bool.false_eq_true, if_false]
  cases hfl : flushLoop oracle st.chunk_duration st.pm
      (st.chunks.filter (fun p => p.2.is_dirty)) with
  | mk res pm1 =>
      rw [hfl] at h1 h2
      simp only at h1 h2
      subst h1
      exact ⟨rfl, rfl, h2⟩

/-- An engine with one dirty chunk and persistence enabled, and an oracle
whose every save fails. -/
def c5engine : EngineState :=
  { chunks := [(0, TimeChunk.new 0 3600 5)], chunk_duration := 3600,
    persistence_enabled := true, pm := pm0 }

def c5oracle : SaveOracle :=
  { saveFails := fun _ => true, truncateFails := false }

/-- C5 witness: the theorem applied to the one-dirty-chunk engine under an
always-failing save. -/
theorem C5_flush_all_save_failure_witness :
    (StorageEngine.flush_all c5oracle c5engine).result
      = .error (.PersistenceError "save_chunk failed") ∧
    (StorageEngine.flush_all c5oracle c5engine).state.chunks = c5engine.chunks ∧
    (StorageEngine.flush_all c5oracle c5engine).state.pm.walRecords
      = c5engine.pm.walRecords :=
  C5_flush_all_save_failure_preserves_dirty c5oracle c5engine rfl
    ⟨(0, TimeChunk.new 0 3600 5), by decide⟩

/-! ## C6 — chunk invariants under the chunk operations -/

/-- Pushing an element satisfying `p` into an entry of a map whose listed
elements all satisfy `p` preserves that property. -/
theorem assocEntryPush_all {α β : Type} [DecidableEq α] (p : β → Bool)
    (m : List (α × List β)) (k : α) (v : β)
    (hm : m.all (fun q => q.2.all p) = true) (hv : p v = true) :
    (assocEntryPush m k v).all (fun q => q.2.all p) = true := by
  induction m with
  | nil => simp [assocEntryPush, hv]
  | cons q rest ih =>
      obtain ⟨k0, v0⟩ := q
      simp only [List.all_cons, Bool.and_eq_true] at hm
      by_cases hk : k0 = k
      · simp [assocEntryPush, hk, hm.1, hm.2, hv]
      · simp [assocEntryPush, hk, hm.1, ih hm.2]

/-- Rust `entry().or_insert_with(Vec::new).push(..)` grows the total number of
stored records by exactly one. -/
theorem assocEntryPush_sumLens (m : List (String × List Record)) (k : String) (v : Record) :
    sumLens (assocEntryPush m k v) = sumLens m + 1 := by
  induction m with
  | nil => simp [assocEntryPush, sumLens]
  | cons q rest ih =>
      obtain ⟨k0, v0⟩ := q
      by_cases hk : k0 = k
      · simp [assocEntryPush, hk, sumLens]
        omega
      · simp [assocEntryPush, hk, sumLens] at ih ⊢
        omega

/-- Delta encoding preserves the length of a record vector. -/
theorem deltaEncode_length (last : Int) (l : List Record) :
    (deltaEncode last l).length = l.length := by
  induction l generalizing last with
  | nil => rfl
  | cons r rest ih => simp [deltaEncode, ih]

/-- The per-metric delta rewrite of `compress` preserves the total number
of stored records. -/
theorem sumLens_deltaEncode (m : List (String × List Record)) :
    sumLens (m.map (fun p : String × List Record => (p.1, deltaEncode 0 p.2))) = sumLens m := by
  induction m with
  | nil => rfl
  | cons q rest ih =>
      simp [sumLens, deltaEncode_length] at ih ⊢
      omega

/-- A primary index accepted by the per-metric loop of `validate` has all
its records inside the chunk window. -/
theorem validateMetrics_bounds (c : TimeChunk) (m : List (String × List Record))
    (h : validateMetrics c m = .ok ()) :
    m.all (fun p => p.2.all (fun r => c.can_accept r.timestamp)) = true := by
  induction m with
  | nil => rfl
  | cons q rest ih =>
      obtain ⟨metric, records⟩ := q
      simp only [validateMetrics] at h
      cases hemp : records.isEmpty with
      | true =>
          simp only [hemp, if_true] at h
          simp [List.isEmpty_iff.mp hemp, ih h]
      | false =>
          simp only [hemp, Bool.false_eq_true, if_false] at h
          cases hord : timestampsNondecreasing records with
          | false => simp [hord] at h
          | true =>
              simp only [hord, Bool.not_true, Bool.false_eq_true, if_false] at h
              cases hb : records.all (fun r => c.can_accept r.timestamp) with
              | false => simp [hb] at h
              | true =>
                  simp only [hb, Bool.not_true, Bool.false_eq_true, if_false] at h
                  simp [hb, ih h]

/-- C6 counterexample: a chunk over `[100, 200)` holding records at
timestamps 150 and 160 satisfies both invariants, but after `compress`
its stored timestamps are the deltas 150 and 10, and 10 lies outside
`[100, 200)` — `compress` breaks the bounds invariant, and `validate`
rejects the compressed chunk (its order check fires first on 150, 10). -/
theorem C6_compress_breaks_bounds_invariant :
    (((TimeChunk.new 100 200 0).append (mkRec 150 1 "m") 0).bind
        (fun c => c.append (mkRec 160 2 "m") 0)).map
        (fun c => (chunkInvariant c, chunkInvariant c.compress, c.compress.validate))
      = .ok (true, false,
          .error (.ValidationFailed "Records not in time order for metric m")) := by
  decide

/-- C6 amended: `append` (on success) and `mark_clean` preserve both chunk
invariants, `compress` preserves the record-count invariant, and a chunk
accepted by `validate` satisfies the bounds invariant; but `compress`
rewrites timestamps to deltas and can violate the bounds invariant, as
the counterexample shows. -/
theorem C6_chunk_operations_and_invariants :
    (∀ (c : TimeChunk) (r : Record) (now : Int) (c2 : TimeChunk),
      chunkInvariant c = true → TimeChunk.append c r now = .ok c2 →
      chunkInvariant c2 = true) ∧
    (∀ c : TimeChunk, chunkInvariant c.mark_clean = chunkInvariant c) ∧
    (∀ c : TimeChunk, recordCountConsistent c = true →
      recordCountConsistent c.compress = true) ∧
    (∀ c : TimeChunk, TimeChunk.validate c = .ok () →
      recordsWithinBounds c = true) := by
  refine ⟨?_, ?_, ?_, ?_⟩
  · intro c r now c2 hinv happ
    have hacc : c.can_accept r.timestamp = true := by
      cases hcc : c.can_accept r.timestamp
      · simp [TimeChunk.append, hcc] at happ
      · rfl
    simp only [TimeChunk.append, hacc, Bool.not_true, Bool.false_eq_true, if_false,
      Except.ok.injEq] at happ
    subst happ
    simp only [chunkInvariant, Bool.and_eq_true] at hinv ⊢
    constructor
    · exact assocEntryPush_all _ _ _ _ hinv.1 hacc
    · have h2 := hinv.2
      simp only [recordCountConsistent, beq_iff_eq] at h2 ⊢
      rw [assocEntryPush_sumLens]
      omega
  · intro c
    rfl
  · intro c h
    simp only [recordCountConsistent, TimeChunk.compress, beq_iff_eq] at h ⊢
    rw [sumLens_deltaEncode]
    exact h
  · intro c h
    simp only [TimeChunk.validate] at h
    by_cases hse : c.start_time ≥ c.end_time
    · simp [hse] at h
    · rw [if_neg hse] at h
      exact validateMetrics_bounds c c.records h

/-- C6 witness: the append clause of the amended theorem applied to a
fresh chunk over `[0, 10)` and a record at timestamp 5. -/
def c6appended : TimeChunk :=
  ((TimeChunk.new 0 10 0).append (mkRec 5 1 "m") 0).toOption.getD (TimeChunk.new 0 10 0)

theorem C6_append_preserves_invariant_witness :
    chunkInvariant (TimeChunk.new 0 10 0) = true ∧ chunkInvariant c6appended = true :=
  ⟨by decide,
    C6_chunk_operations_and_invariants.1 (TimeChunk.new 0 10 0) (mkRec 5 1 "m") 0
      c6appended (by decide) (by decide)⟩

/-- C8 amended: for a valid query (`s < e`) with `aggregation = Count` and
`interval = None` over a single metric whose underlying storage range
query succeeds with `l`, `QueryEngine::query_range` returns one record
whose value is the count of `l` when `l` is non-empty, and NO record at
all when `l` is empty (contrary to what the claim includes for the empty
case); the aggregate value always equals the underlying count. -/
theorem C8_count_aggregation_counts_nonempty_range (st : EngineState) (s e : Int)
    (m : String) (l : List Record) (hse : s < e)
    (hq : StorageEngine.query_range st s e m = .ok l) :
    QueryEngine.query_range st
        { start_time := s, end_time := e, metrics := [m],
          aggregation := some .Count, interval := none }
      = .ok (if l.isEmpty then [] else [QueryEngine.aggregate_all l .Count]) ∧
    (QueryEngine.aggregate_all l .Count).value = (l.length : ℚ) := by
  constructor
  · have hns : ¬ s ≥ e := not_le.mpr hse
    simp only [QueryEngine.query_range, queryMetricsLoop, hq, hns, if_false,
      QueryEngine.aggregate_records]
    cases hl : l.isEmpty <;> simp [Except.map]
  · simp [QueryEngine.aggregate_all]

/-- C8 witness: the amended theorem applied to the empty engine at the
valid query `[0, 1)` for metric `"m"`, whose underlying range is empty. -/
theorem C8_count_aggregation_witness :
    QueryEngine.query_range (engine0 3600)
        { start_time := 0, end_time := 1, metrics := ["m"],
          aggregation := some .Count, interval := none }
      = .ok (if ([] : List Record).isEmpty then []
             else [QueryEngine.aggregate_all [] .Count]) ∧
    (QueryEngine.aggregate_all ([] : List Record) .Count).value
      = ((List.length ([] : List Record) : ℕ) : ℚ) :=
  C8_count_aggregation_counts_nonempty_range (engine0 3600) 0 1 "m" []
    (by decide) (by decide)

/-! ## C9 — `append_records` batching -/

/-- A persistence manager whose `base_path` is the empty path (the
in-memory special case at the top of `append_records`). -/
def c9pm : PersistenceManager :=
  { basePathEmpty := true, active_records := [], walRecords := [], walSyncs := 0,
    savedChunks := [] }

/-- C9 counterexample: with an empty `base_path`, `append_records` returns
before touching anything, so even a batch of one record (≤ 100) leaves the
active-records table empty instead of setting the entry
`("m" ↦ 100)` the claim requires. -/
theorem C9_empty_base_path_skips_active_records :
    (c9pm.append_records [mkRec 100 1 "m"]).active_records = [] ∧
    assocInsert ([] : List (String × Int)) "m" 100 = [("m", 100)] ∧
    ([] : List (String × Int)) ≠ [("m", 100)] := by decide

/-- The active-records table after the slow path of `append_records` is the
fold of per-record `HashMap::insert` updates over the starting table. -/
theorem foldl_append_record_active (records : List Record) (pm : PersistenceManager) :
    (records.foldl (fun p r => p.append_record r) pm).active_records =
      records.foldl (fun m r => assocInsert m r.metric_name r.timestamp) pm.active_records := by
  induction records generalizing pm with
  | nil => rfl
  | cons r rest ih => rw [List.foldl_cons, List.foldl_cons, ih]; rfl

/-- C9 amended: a batch of strictly more than 100 records leaves the
active-records table unchanged and performs no per-record `sync_data`;
a batch of at most 100 records sets, for each record in order, the table
entry for its metric to its timestamp — PROVIDED the base path is
non-empty (an empty base path short-circuits `append_records` entirely,
as the C9 counterexample shows). -/
theorem C9_append_records_batching (pm : PersistenceManager) (records : List Record) :
    (records.length > 100 →
      (pm.append_records records).active_records = pm.active_records ∧
      (pm.append_records records).walSyncs = pm.walSyncs) ∧
    (pm.basePathEmpty = false → records.length ≤ 100 →
      (pm.append_records records).active_records =
        records.foldl (fun m r => assocInsert m r.metric_name r.timestamp)
          pm.active_records) := by
  constructor
  · intro hlen
    cases records with
    | nil => simp at hlen
    | cons r rest =>
        have h100 : 100 < rest.length + 1 := by simpa using hlen
        by_cases hb : pm.basePathEmpty <;>
          simp [PersistenceManager.append_records, hb, h100]
  · intro hb hlen
    unfold PersistenceManager.append_records
    cases hemp : records.isEmpty with
    | true =>
        have hnil : records = [] := List.isEmpty_iff.mp hemp
        subst hnil
        simp
    | false =>
        have hnot : ¬ records.length > 100 := by omega
        rw [if_neg (by simp [hemp]), if_neg (by simp [hb]), if_neg hnot]
        exact foldl_append_record_active records pm

/-- C9 witness: instantiating the slow-path clause of the amended theorem at a
one-record batch over a non-empty base path. -/
theorem C9_append_records_batching_witness :
    (pm0.append_records [mkRec 100 1 "m"]).active_records =
      [mkRec 100 1 "m"].foldl (fun m r => assocInsert m r.metric_name r.timestamp)
        pm0.active_records :=
  (C9_append_records_batching pm0 [mkRec 100 1 "m"]).2 (by decide) (by decide)

/-! ## C10 — analytical functions on the empty record list -/

/-- C10 counterexample: `detect_outliers` on the empty list does not zero
its numeric `threshold` field — it echoes the supplied threshold (2 here). -/
theorem C10_detect_outliers_echoes_threshold :
    (TimeSeriesFunctions.detect_outliers (fun _ => 0) [] 2).threshold = 2 ∧
    ((2 : ℚ) ≠ 0) := by decide

/-- C10 amended: on the empty record list each analytical function returns
its defaulted result rather than failing: `calculate_trend` and
`calculate_stats` with empty metric name, all numeric fields 0,
`data_points`/`count` 0 and empty samples/percentiles; `detect_outliers`
with empty metric name and outliers, `method = "zscore"`, and the supplied
threshold echoed in its `threshold` field. -/
theorem C10_empty_records_yield_defaulted_results (sqrtF : ℚ → ℚ) (τ : ℚ) :
    TimeSeriesFunctions.calculate_trend sqrtF [] =
      { metric_name := "", slope := 0, r_squared := 0, start_value := 0, end_value := 0,
        min_value := 0, max_value := 0, stddev := 0, data_points := 0, samples := [] } ∧
    TimeSeriesFunctions.calculate_stats sqrtF [] =
      { metric_name := "", min := 0, max := 0, mean := 0, median := 0, stddev := 0,
        count := 0, percentiles := [] } ∧
    TimeSeriesFunctions.detect_outliers sqrtF [] τ =
      { metric_name := "", outliers := [], threshold := τ, method := "zscore" } :=
  ⟨rfl, rfl, rfl⟩

/-- C10 witness: the amended theorem instantiated at the identity square
root stand-in and threshold 3. -/
theorem C10_empty_records_defaulted_witness :
    TimeSeriesFunctions.detect_outliers (fun q => q) [] 3 =
      { metric_name := "", outliers := [], threshold := 3, method := "zscore" } :=
  (C10_empty_records_yield_defaulted_results (fun q => q) 3).2.2

end EmberDB
